import Mathlib

/-!
Verification development for the cloudflare-email-server repository.

This file gives a shallow embedding of the host-neutral core of the
repository — the JSON value model used by request/response bodies, the
zod `EmailRequestSchema` field validators, the email-keyed rate limiter,
the buffering (worker) response adapter, the middleware chain runner with
the standard error-to-response mapping, the email-provider selection in
`EmailProviderFactory.getProvider`, and the catch-normalization of
`MailChannelsProviderBase.sendEmail` — and proves theorems about the
specification's claims over these definitions.

Machine integers are modelled as `Int`/`Nat` (JS integer arithmetic in the
embedded code stays far from 2^53, so no overflow modelling is needed),
strings as Lean `String` (the embedded checks and inputs are ASCII, where
JS UTF-16 length and Lean character count agree).
-/

/-- JsVal models a JavaScript runtime value as far as the embedded code
inspects one: `null`, `undefined`, booleans, integer numbers, strings and
plain objects (ordered field lists, as JS objects preserve insertion
order). -/
inductive JsVal : Type where
  | null : JsVal
  | undefined : JsVal
  | bool : Bool → JsVal
  | num : Int → JsVal
  | str : String → JsVal
  | obj : List (String × JsVal) → JsVal

/-- truthy mirrors JavaScript boolean coercion: `null`, `undefined`,
`false`, `0` and `""` are falsy, everything else (including every object)
is truthy. -/
def truthy : JsVal → Bool
  | .null => false
  | .undefined => false
  | .bool b => b
  | .num n => n != 0
  | .str s => s ≠ ""
  | .obj _ => true

/-- jsTypeof mirrors the JavaScript `typeof` operator on the modelled
values (note `typeof null === "object"`). -/
def jsTypeof : JsVal → String
  | .null => "object"
  | .undefined => "undefined"
  | .bool _ => "boolean"
  | .num _ => "number"
  | .str _ => "string"
  | .obj _ => "object"

/-- getField models property access `v[name]` on a JS value: the first
binding of the name in an object, `undefined` otherwise. -/
def getField (v : JsVal) (name : String) : JsVal :=
  match v with
  | .obj fields =>
    match fields.find? (fun p => p.1 = name) with
    | some p => p.2
    | none => .undefined
  | _ => .undefined

/-- isJsString tells whether a modelled value is a JS string, as tested by
`typeof x === 'string'`. -/
def isJsString : JsVal → Bool
  | .str _ => true
  | _ => false

/-- jsWhitespaceChar models the character class matched by JavaScript
`\s` (and trimmed by `String.prototype.trim`): ASCII whitespace plus the
common Unicode whitespace code points. -/
def jsWhitespaceChar (c : Char) : Bool :=
  c = ' ' || c = '\t' || c = '\n' || c = '\r' ||
  c = (Char.ofNat 11) || c = (Char.ofNat 12) ||
  c = (Char.ofNat 0xa0) || c = (Char.ofNat 0x2028) ||
  c = (Char.ofNat 0x2029) || c = (Char.ofNat 0xfeff)

/-- jsTrim models JavaScript `String.prototype.trim`: remove whitespace
from both ends. -/
def jsTrim (s : String) : String :=
  let cs := s.data.dropWhile jsWhitespaceChar
  String.mk ((cs.reverse.dropWhile jsWhitespaceChar).reverse)

/-- jsToLower models JavaScript `String.prototype.toLowerCase` on the
ASCII inputs the embedded code handles. -/
def jsToLower (s : String) : String :=
  String.mk (s.data.map Char.toLower)

/-- jsToString models the JavaScript `String(v)` coercion used by
`handleError` on non-Error thrown values. -/
def jsToString : JsVal → String
  | .null => "null"
  | .undefined => "undefined"
  | .bool b => cond b "true" "false"
  | .num n => toString n
  | .str s => s
  | .obj _ => "[object Object]"

/-- jsonEscapeChar escapes one character for a JSON string literal as
`JSON.stringify` does for the characters appearing in this development. -/
def jsonEscapeChar (c : Char) : String :=
  if c = '"' then "\\\"" else
  if c = '\\' then "\\\\" else
  if c = '\n' then "\\n" else
  if c = '\r' then "\\r" else
  if c = '\t' then "\\t" else
  String.mk [c]

/-- jsonQuote renders a JSON string literal. -/
def jsonQuote (s : String) : String :=
  "\"" ++ String.join (s.data.map jsonEscapeChar) ++ "\""

mutual

/-- jsonStringify models `JSON.stringify` on the modelled values:
`undefined` at top level serializes to nothing (`none`), object fields
with `undefined` values are skipped. -/
def jsonStringify : JsVal → Option String
  | .null => some "null"
  | .undefined => none
  | .bool b => some (cond b "true" "false")
  | .num n => some (toString n)
  | .str s => some (jsonQuote s)
  | .obj fields => some ("\x7b" ++ String.intercalate "," (jsonStringifyFields fields) ++ "\x7d")

/-- jsonStringifyFields renders the defined fields of a JSON object. -/
def jsonStringifyFields : List (String × JsVal) → List String
  | [] => []
  | (k, v) :: rest =>
    match jsonStringify v with
    | some sv => (jsonQuote k ++ ":" ++ sv) :: jsonStringifyFields rest
    | none => jsonStringifyFields rest

end

/-!
Embedding of `EmailRequestSchema`
(`src/packages/shared/src/schema/api.ts`, lines 79-100; the copy in
`src/src/schema/api.ts` lines 4-23 has the same three text fields).
Each zod field runs its checks on the raw string and, when they all pass,
applies the field's `.transform`.  The optional `browserInfo` diagnostic
map is independent of the three text fields and is not needed by any
claim, so submissions are modelled by the three required fields.
-/

/-- nameCharOk is the character class of the `name` regex
`^[a-zA-Z\s\-'.]+$`: letters, whitespace, hyphen, apostrophe, period. -/
def nameCharOk (c : Char) : Bool :=
  (('a' ≤ c && c ≤ 'z') || ('A' ≤ c && c ≤ 'Z')) ||
  jsWhitespaceChar c || c = '-' || c = '\'' || c = '.'

/-- parseName embeds the `name` field validator:
`z.string().min(2).max(50).regex(/^[a-zA-Z\s\-'.]+$/).transform(trim)`. -/
def parseName (s : String) : Option String :=
  if 2 ≤ s.length && s.length ≤ 50 && s.length != 0 && s.data.all nameCharOk then
    some (jsTrim s)
  else
    none

/-- emailLocalChar is the repeatable local-part character class of the zod
3.24 email regex
`^(?!\.)(?!.*\.\.)([A-Z0-9_'+\-\.]*)[A-Z0-9_+\-]@([A-Z0-9][A-Z0-9\-]*\.)+[A-Z]{2,}$/i`. -/
def emailLocalChar (c : Char) : Bool :=
  c.isAlpha || c.isDigit || c = '_' || c = '\'' || c = '+' || c = '-' || c = '.'

/-- emailLocalLastChar is the character class required of the last
local-part character by the zod email regex (no dot, no apostrophe). -/
def emailLocalLastChar (c : Char) : Bool :=
  c.isAlpha || c.isDigit || c = '_' || c = '+' || c = '-'

/-- emailLabelOk checks one interior domain label `[A-Z0-9][A-Z0-9\-]*`
of the zod email regex. -/
def emailLabelOk (l : List Char) : Bool :=
  match l with
  | [] => false
  | c :: rest => (c.isAlpha || c.isDigit) && rest.all (fun d => d.isAlpha || d.isDigit || d = '-')

/-- emailTldOk checks the final domain label `[A-Z]{2,}` of the zod email
regex. -/
def emailTldOk (l : List Char) : Bool :=
  2 ≤ l.length && l.all Char.isAlpha

/-- splitOnChar models `String.prototype.split` / Lean `String.splitOn`
restricted to a one-character separator, written by structural recursion
over the character list (splitting the empty list yields one empty
part). -/
def splitOnChar (sep : Char) : List Char → List (List Char)
  | [] => [[]]
  | c :: rest =>
    if c = sep then
      [] :: splitOnChar sep rest
    else
      match splitOnChar sep rest with
      | [] => [[c]]
      | h :: t => (c :: h) :: t

/-- containsDoubleDot detects two consecutive dots, the pattern the zod
email regex rejects with its `(?!.*\.\.)` lookahead. -/
def containsDoubleDot : List Char → Bool
  | [] => false
  | [_] => false
  | c :: d :: rest => (c = '.' && d = '.') || containsDoubleDot (d :: rest)

/-- emailLocalOk checks the local part `([A-Z0-9_'+\-\.]*)[A-Z0-9_+\-]`
of the zod email regex: non-empty, every character allowed, and the last
character not a dot or apostrophe. -/
def emailLocalOk (cs : List Char) : Bool :=
  !cs.isEmpty && cs.all emailLocalChar &&
  (match cs.getLast? with
   | some c => emailLocalLastChar c
   | none => false)

/-- emailDomainOk checks the domain `([A-Z0-9][A-Z0-9\-]*\.)+[A-Z]{2,}`
of the zod email regex, given the dot-separated labels: at least two
labels, interior labels well-formed, final label an alphabetic top-level
label of length at least two. -/
def emailDomainOk (labels : List (List Char)) : Bool :=
  2 ≤ labels.length && labels.dropLast.all emailLabelOk &&
  (match labels.getLast? with
   | some tld => emailTldOk tld
   | none => false)

/-- zodEmailCheck embeds the zod 3.24 `z.string().email()` regex
(case-insensitive): no leading dot and no `..` anywhere; exactly one `@`;
a well-formed local part; a well-formed domain. -/
def zodEmailCheck (s : String) : Bool :=
  (match s.data with
   | '.' :: _ => false
   | _ => true) &&
  (!containsDoubleDot s.data) &&
  (match splitOnChar '@' s.data with
   | [localPart, domain] =>
     emailLocalOk localPart && emailDomainOk (splitOnChar '.' domain)
   | _ => false)

/-- parseEmail embeds the `email` field validator:
`z.string().email().max(100).transform(s => s.toLowerCase().trim())`. -/
def parseEmail (s : String) : Option String :=
  if zodEmailCheck s && s.length ≤ 100 then
    some (jsTrim (jsToLower s))
  else
    none

/-- parseMessage embeds the `message` field validator:
`z.string().min(10).max(1000).transform(trim)`. -/
def parseMessage (s : String) : Option String :=
  if 10 ≤ s.length && s.length ≤ 1000 then
    some (jsTrim s)
  else
    none

/-- EmailSubmission is the caller-supplied contact-form payload: the three
required text fields of `EmailRequestSchema`. -/
structure EmailSubmission where
  name : String
  email : String
  message : String
deriving Repr, DecidableEq

/-- parseEmailRequest embeds `EmailRequestSchema.safeParse` on a
submission: every field must pass its checks, and the result carries the
transformed (trimmed / lower-cased) fields. -/
def parseEmailRequest (sub : EmailSubmission) : Option EmailSubmission :=
  match parseName sub.name, parseEmail sub.email, parseMessage sub.message with
  | some n, some e, some m => some ⟨n, e, m⟩
  | _, _, _ => none

/-!
Embedding of the email-keyed rate limiter `commonEmailRateLimiter`
(`src/packages/shared/src/middleware/error-handler.ts`, lines 126-171;
the express variant `emailRateLimiter` in the repository shares the same
counting algorithm).  The module-level `emailRateLimitMap` is passed in
and returned explicitly; `Date.now()` is the explicit `now` argument;
`env.EMAIL_RATE_LIMIT_WINDOW_MS` and `env.EMAIL_RATE_LIMIT_MAX` are the
`windowMs` / `maxReq` parameters.
-/

/-- RateEntry is one counter entry `{ count, timestamp }` of the rate
limit map. -/
structure RateEntry where
  count : Int
  timestamp : Int
deriving Repr, DecidableEq

/-- RateMap models the JS `Map<string, RateEntry>` as an association list
keyed by email address. -/
def RateMap : Type := List (String × RateEntry)

/-- mapGet models `Map.prototype.get`. -/
def mapGet (m : RateMap) (k : String) : Option RateEntry :=
  match m.find? (fun p => p.1 = k) with
  | some p => some p.2
  | none => none

/-- mapSet models `Map.prototype.set`: replace the binding when the key
is present, append it otherwise. -/
def mapSet (m : RateMap) (k : String) (v : RateEntry) : RateMap :=
  match m with
  | [] => [(k, v)]
  | (k', v') :: rest =>
    if k' = k then (k, v) :: rest else (k', v') :: mapSet rest k v

/-- RateLimitStep is the observable outcome of one run of the middleware:
whether `next()` was invoked, the `429` rejection body written via
`res.status(429).json(...)` if any, and the rate-limit map afterwards. -/
structure RateLimitStep where
  calledNext : Bool
  rejected : Option (Nat × JsVal)
  map : RateMap

/-- rateLimitRejectionBody is the JSON body written on a rate-limit
rejection: `{success:false, message:'Too many requests',
error:{code:'RATE_LIMIT_EXCEEDED'}}`. -/
def rateLimitRejectionBody : JsVal :=
  .obj [("success", .bool false),
        ("message", .str "Too many requests"),
        ("error", .obj [("code", .str "RATE_LIMIT_EXCEEDED")])]

/-- commonEmailRateLimiter embeds the email rate limiter middleware: skip
counting when the body is absent, not an object, or carries no string
(or empty) `email`; otherwise key by the lower-cased email, read the
counter before the hourly modulo-triggered full clear, then reset an
expired window to 1, reject with 429 when the count has reached the
maximum inside the window, or increment and continue. -/
def commonEmailRateLimiter (windowMs maxReq : Int) (body : JsVal) (now : Int)
    (m : RateMap) : RateLimitStep :=
  if !truthy body || jsTypeof body != "object" then
    ⟨true, none, m⟩
  else
    let email : Option String :=
      match getField body "email" with
      | .str s => some (jsToLower s)
      | _ => none
    match email with
    | none => ⟨true, none, m⟩
    | some email =>
      if email = "" then
        ⟨true, none, m⟩
      else
        let userData := mapGet m email
        let m := if now % (60 * 60 * 1000) < 1000 then [] else m
        match userData with
        | some u =>
          if now - u.timestamp > windowMs then
            ⟨true, none, mapSet m email ⟨1, now⟩⟩
          else if u.count ≥ maxReq then
            ⟨false, some (429, rateLimitRejectionBody), m⟩
          else
            ⟨true, none, mapSet m email ⟨u.count + 1, u.timestamp⟩⟩
        | none =>
          ⟨true, none, mapSet m email ⟨1, now⟩⟩

/-!
Embedding of `WorkerResponseAdapter` (`src/unnamed/part_000`, lines
80-173), the buffering (worker) host response: status, header map and
body are buffered; `json()` stores the body and emits `finish`; `send()`
builds the native `Response` (bodyless for the 101/204/205/304 status
codes, JSON text otherwise) and emits `finish`.  Listener callbacks are
identified by numbers; an emission appends the registered listener ids,
in registration order, to a `finishLog`.  Header values are strings, so
the `String(value)`/`undefined` filtering in `send()` is the identity.
-/

/-- hdrSet models `this._headers[name] = value`: replace in place when
the key is present, append otherwise. -/
def hdrSet (hs : List (String × String)) (k v : String) : List (String × String) :=
  match hs with
  | [] => [(k, v)]
  | (k', v') :: rest =>
    if k' = k then (k, v) :: rest else (k', v') :: hdrSet rest k v

/-- hdrMerge models the spread merge `{ ...this._headers, ...name }`:
existing keys keep their position and take the new value when overridden,
new keys are appended in order. -/
def hdrMerge (hs new : List (String × String)) : List (String × String) :=
  new.foldl (fun acc p => hdrSet acc p.1 p.2) hs

/-- WorkerResp is the buffered state of a `WorkerResponseAdapter`:
status code (default 200), header map (default JSON content type), body
(initially `null`) and the registered `finish` listener ids. -/
structure WorkerResp where
  statusCode : Nat
  headers : List (String × String)
  body : JsVal
  listeners : List Nat

/-- initWorkerResp is the state of a freshly constructed
`WorkerResponseAdapter`. -/
def initWorkerResp : WorkerResp :=
  ⟨200, [("Content-Type", "application/json")], .null, []⟩

/-- NativeResponse is the observable part of the native `Response` value
built by `send()`: status, headers and the optional body text. -/
structure NativeResponse where
  status : Nat
  headers : List (String × String)
  body : Option String

/-- nullBodyStatusCodes is the `send()` list of status codes that do not
allow a body. -/
def nullBodyStatusCodes : List Nat := [101, 204, 205, 304]

/-- sendResponse is the native response built by one `send()` call from
the buffered state: bodyless for the no-body status codes,
`JSON.stringify(this._body)` otherwise. -/
def sendResponse (r : WorkerResp) : NativeResponse :=
  if r.statusCode ∈ nullBodyStatusCodes then
    ⟨r.statusCode, r.headers, none⟩
  else
    ⟨r.statusCode, r.headers, jsonStringify r.body⟩

/-- WOp is one observable operation on a `WorkerResponseAdapter`. -/
inductive WOp : Type where
  | statusOp : Nat → WOp
  | jsonOp : JsVal → WOp
  | setOp : String → String → WOp
  | setManyOp : List (String × String) → WOp
  | onFinish : Nat → WOp
  | sendOp : WOp

/-- WorkerRun is an execution trace of the adapter: the buffered state,
the ids of every `finish` listener invocation so far (in invocation
order), and the native responses returned by the `send()` calls so far. -/
structure WorkerRun where
  resp : WorkerResp
  finishLog : List Nat
  sent : List NativeResponse

/-- stepWOp runs one adapter operation: `status`/`set` mutate the buffer,
`json` stores the body and emits `finish`, `on('finish', ...)` registers
a listener, `send` appends the built native response and emits
`finish`. -/
def stepWOp (st : WorkerRun) (op : WOp) : WorkerRun :=
  match op with
  | .statusOp n => ⟨{ st.resp with statusCode := n }, st.finishLog, st.sent⟩
  | .jsonOp v =>
    ⟨{ st.resp with body := v }, st.finishLog ++ st.resp.listeners, st.sent⟩
  | .setOp k v => ⟨{ st.resp with headers := hdrSet st.resp.headers k v }, st.finishLog, st.sent⟩
  | .setManyOp hs =>
    ⟨{ st.resp with headers := hdrMerge st.resp.headers hs }, st.finishLog, st.sent⟩
  | .onFinish id => ⟨{ st.resp with listeners := st.resp.listeners ++ [id] }, st.finishLog, st.sent⟩
  | .sendOp =>
    ⟨st.resp, st.finishLog ++ st.resp.listeners, st.sent ++ [sendResponse st.resp]⟩

/-- runWOps executes a sequence of adapter operations from the freshly
constructed state. -/
def runWOps (ops : List WOp) : WorkerRun :=
  ops.foldl stepWOp ⟨initWorkerResp, [], []⟩

/-!
Embedding of the error taxonomy and the standardized error mapping
(`src/packages/shared/src/utils/errors.ts` and
`src/packages/shared/src/utils/error-handler.ts`, lines 22-75).  In the
shared package `AppError` (with `ValidationError` as a subclass) extends
`Error` and carries `code`/`statusCode`/`details`, while `EmailError`
extends `Error` directly (not `AppError`) and carries a string code and a
status; `createErrorResponse` special-cases `ZodError` and `AppError` and
sends everything else — `EmailError` included — down the unknown-error
branch.
-/

/-- ErrorCode is the `ErrorCode` enum of `schema/api.ts`. -/
inductive ErrorCode : Type where
  | VALIDATION_ERROR
  | RATE_LIMIT_EXCEEDED
  | EMAIL_SEND_FAILED
  | SERVER_ERROR
  | UNAUTHORIZED
  | METHOD_NOT_ALLOWED
  | FORBIDDEN
deriving Repr, DecidableEq

/-- errorCodeStr is the string value of an `ErrorCode` enum member. -/
def errorCodeStr : ErrorCode → String
  | .VALIDATION_ERROR => "VALIDATION_ERROR"
  | .RATE_LIMIT_EXCEEDED => "RATE_LIMIT_EXCEEDED"
  | .EMAIL_SEND_FAILED => "EMAIL_SEND_FAILED"
  | .SERVER_ERROR => "SERVER_ERROR"
  | .UNAUTHORIZED => "UNAUTHORIZED"
  | .METHOD_NOT_ALLOWED => "METHOD_NOT_ALLOWED"
  | .FORBIDDEN => "FORBIDDEN"

/-- JsError models a JavaScript `Error` object as the embedded code
classifies one: a `ZodError` with its issue list, an `AppError` with
message/code/status/details, an `EmailError` (which extends `Error`, not
`AppError`) with message, string code and status, or any other `Error`
with just a message. -/
inductive JsError : Type where
  | zod : JsVal → JsError
  | app : String → ErrorCode → Nat → JsVal → JsError
  | email : String → String → Nat → JsError
  | plain : String → JsError

/-- Thrown models a JavaScript thrown value: an `Error` instance or an
arbitrary non-`Error` value. -/
inductive Thrown : Type where
  | err : JsError → Thrown
  | value : JsVal → Thrown

/-- handleError embeds `handleError(err)`:
`err instanceof Error ? err : new Error(String(err))`. -/
def handleError : Thrown → JsError
  | .err e => e
  | .value v => .plain (jsToString v)

/-- ErrorResponseBody is the body shape built by `createErrorResponse`:
`{success:false, message, error:{code, details}}`. -/
structure ErrorResponseBody where
  message : String
  code : ErrorCode
  details : JsVal

/-- createErrorResponse embeds `createErrorResponse(err)`: `ZodError` maps
to 400/VALIDATION_ERROR with the issues as details; `AppError` maps to
its own status/code/message/details; everything else (the shared
package's `EmailError` included) maps to 500/SERVER_ERROR with
`'Internal server error'` and the raw message as details only in
development (`dev`). -/
def createErrorResponse (dev : Bool) (e : JsError) : Nat × ErrorResponseBody :=
  match e with
  | .zod issues => (400, ⟨"Validation failed", .VALIDATION_ERROR, issues⟩)
  | .app msg code statusCode details => (statusCode, ⟨msg, code, details⟩)
  | .email msg _ _ =>
    (500, ⟨"Internal server error", .SERVER_ERROR, if dev then .str msg else .undefined⟩)
  | .plain msg =>
    (500, ⟨"Internal server error", .SERVER_ERROR, if dev then .str msg else .undefined⟩)

/-- errorResponseJson is the `ErrorResponseBody` as the JSON value passed
to `res.json(...)`. -/
def errorResponseJson (b : ErrorResponseBody) : JsVal :=
  .obj [("success", .bool false),
        ("message", .str b.message),
        ("error", .obj [("code", .str (errorCodeStr b.code)), ("details", b.details)])]

/-!
Embedding of the middleware chain runner `runMiddlewareChain`
(`src/packages/shared/src/adapters/middleware-adapter.ts`, lines 18-44).
A middleware is host-neutral client code over `(req, res, next)`;  it is
modelled by the operations the runner can observe: response writes
(`status` / `json` / `set`), then either a synchronous throw (or promise
rejection), a short-circuit (no `next()` call), or a `next()` call
followed by further writes after the inner chain unwinds.  The runner's
shared post-incremented index over the middleware list is equivalent, for
middlewares calling `next()` at most once, to threading the tail of the
list into the continuation, which is how `runNext` is written.
-/

/-- ChainResp is the observable mutable response surface the runner and
its middlewares share: status code, header map, body. -/
structure ChainResp where
  statusCode : Nat
  headers : List (String × String)
  body : JsVal

/-- initChainResp is a fresh response buffer (status 200, JSON content
type, `null` body), as both host adapters construct one. -/
def initChainResp : ChainResp :=
  ⟨200, [("Content-Type", "application/json")], .null⟩

/-- WAct is one response write performed by a middleware:
`res.status(n)`, `res.json(v)` or `res.set(k, v)`. -/
inductive WAct : Type where
  | statusA : Nat → WAct
  | jsonA : JsVal → WAct
  | setA : String → String → WAct

/-- applyWAct performs one response write. -/
def applyWAct (r : ChainResp) : WAct → ChainResp
  | .statusA n => { r with statusCode := n }
  | .jsonA v => { r with body := v }
  | .setA k v => { r with headers := hdrSet r.headers k v }

/-- applyWActs performs a sequence of response writes in order. -/
def applyWActs (acts : List WAct) (r : ChainResp) : ChainResp :=
  acts.foldl applyWAct r

/-- MWOutcome is what a middleware does after its initial writes: throw
(synchronously or as a promise rejection), short-circuit without calling
`next()`, or call `next()` and perform further writes when the inner
chain returns. -/
inductive MWOutcome : Type where
  | throwE : Thrown → MWOutcome
  | stop : MWOutcome
  | callNext : List WAct → MWOutcome

/-- MW is one modelled middleware: an identifier (to observe which
middlewares ran and in what order), its initial response writes, and its
outcome. -/
structure MW where
  id : Nat
  pre : List WAct
  outcome : MWOutcome

/-- runNext embeds the runner's recursive `next()` continuation: invoke
the next middleware in the list, thread the response state through, and
propagate a thrown value upward together with the response state at the
moment of the throw.  The returned list records the ids of invoked
middlewares, in invocation order. -/
def runNext : List MW → ChainResp → ChainResp × List Nat × Option Thrown
  | [], r => (r, [], none)
  | mw :: rest, r =>
    let r1 := applyWActs mw.pre r
    match mw.outcome with
    | .throwE e => (r1, [mw.id], some e)
    | .stop => (r1, [mw.id], none)
    | .callNext post =>
      match runNext rest r1 with
      | (r2, tr, some e) => (r2, mw.id :: tr, some e)
      | (r2, tr, none) => (applyWActs post r2, mw.id :: tr, none)

/-- runMiddlewareChain embeds the runner: `await next()` then
`return !res.body`; on a caught error, write
`res.status(...).json(...)` from `createErrorResponse(handleError(e))`
and return `true`.  The result is the returned boolean, the final
response state, and the ids of the invoked middlewares. -/
def runMiddlewareChain (dev : Bool) (mws : List MW) (r : ChainResp) :
    Bool × ChainResp × List Nat :=
  match runNext mws r with
  | (r1, tr, none) => (!truthy r1.body, r1, tr)
  | (r1, tr, some e) =>
    let er := createErrorResponse dev (handleError e)
    (true, applyWActs [.statusA er.1, .jsonA (errorResponseJson er.2)] r1, tr)

/-!
Embedding of the provider selection in `EmailProviderFactory.getProvider`
(`src/packages/shared/src/services/email-providers/email-provider-factory.ts`,
lines 24-93).  Only the selection of the concrete provider class is
modelled; the per-cache-key instance cache and `initialize()` call that
follow do not affect which provider type is chosen.
-/

/-- EnvCfg is the slice of the configuration environment the factory
selection reads; each variable is an optional string (`none` models an
unset variable). -/
structure EnvCfg where
  EMAIL_PROVIDER : Option String
  EMAIL_SERVICE : Option String
  MAILCHANNELS_API_KEY : Option String

/-- truthyOptStr is JS truthiness of an optional string variable: set and
non-empty. -/
def truthyOptStr : Option String → Bool
  | some s => s ≠ ""
  | none => false

/-- jsOrStr models `v || d` for an optional string: `d` when `v` is
absent or empty. -/
def jsOrStr (v : Option String) (d : String) : String :=
  match v with
  | some s => if s = "" then d else s
  | none => d

/-- ProviderChoice names the concrete provider class the factory
constructs: `MailChannelsApiKeyProvider` (with its key),
`MailChannelsWorkerProvider` (domain auth), the legacy
`MailchannelsProvider`, or `NodemailerProvider` (SMTP). -/
inductive ProviderChoice : Type where
  | apiKey : String → ProviderChoice
  | workerDomainAuth : ProviderChoice
  | legacyMailchannels : ProviderChoice
  | nodemailer : ProviderChoice
deriving Repr, DecidableEq

namespace EmailProviderFactory

/-- getProviderChoice embeds the selection logic of `getProvider`:
resolve the provider type from `EMAIL_PROVIDER` (strict comparison with
`'mailchannels'`) with `EMAIL_SERVICE || 'gmail'` as fallback, then
switch on the lower-cased type: in the `mailchannels` case an available
API key picks the API-key provider, else worker mode picks the worker
provider, else the legacy provider; in the default case worker mode picks
the API-key provider when a key exists and the worker provider otherwise,
and non-worker mode picks the Nodemailer provider. -/
def getProviderChoice (env : EnvCfg) (useWorker : Bool) : ProviderChoice :=
  let emailService := jsOrStr env.EMAIL_SERVICE "gmail"
  let providerType :=
    if env.EMAIL_PROVIDER = some "mailchannels" then "mailchannels" else emailService
  if jsToLower providerType = "mailchannels" then
    if truthyOptStr env.MAILCHANNELS_API_KEY then
      .apiKey (env.MAILCHANNELS_API_KEY.getD "")
    else if useWorker then
      .workerDomainAuth
    else
      .legacyMailchannels
  else
    if useWorker then
      if truthyOptStr env.MAILCHANNELS_API_KEY then
        .apiKey (env.MAILCHANNELS_API_KEY.getD "")
      else
        .workerDomainAuth
    else
      .nodemailer

end EmailProviderFactory

/-!
Embedding of `MailChannelsProviderBase.sendEmail` (`src/unnamed/part_007`,
lines 94-168; `MailChannelsProvider.sendEmail` in
`src/packages/shared/src/services/email-providers/mailchannels-provider.ts`
lines 106-172 has the same try/catch shape).  The try body —
`validateAuthentication()` followed by the network call
`sendToMailChannels(...)` — is abstracted by its outcome: the thrown
value at whichever step fails, or the message id (possibly `null`)
returned by the relay.  The catch clause is translated exactly.
-/

/-- EmailSendResult is `{success, messageId, error}`, normalized
identically for every provider. -/
structure EmailSendResult where
  success : Bool
  messageId : Option String
  error : Option JsError

/-- SendAttempt abstracts the effectful try body of `sendEmail`: the
outcome of `validateAuthentication()` (a thrown value or success) and the
outcome of the relay call (a thrown value, or the optional message id
from the response body). -/
structure SendAttempt where
  validateAuth : Option Thrown
  transport : Except Thrown (Option String)

/-- isEmailErrorJs is the `error instanceof EmailError` test. -/
def isEmailErrorJs : JsError → Bool
  | .email _ _ _ => true
  | _ => false

/-- mailChannelsTryBody is the outcome of the try body: a throw from
`validateAuthentication()` preempts the transport call. -/
def mailChannelsTryBody (att : SendAttempt) : Except Thrown (Option String) :=
  match att.validateAuth with
  | some e => .error e
  | none => att.transport

/-- mailChannelsSendEmail embeds `sendEmail`: on success, return
`{success:true, messageId: messageId || 'mc-' + Date.now(), error:null}`;
on a caught error, rethrow it unchanged when it is an `EmailError`,
otherwise return `{success:false, messageId:null, error}` with the error
coerced to an `Error` instance. -/
def mailChannelsSendEmail (att : SendAttempt) (now : Int) :
    Except JsError EmailSendResult :=
  match mailChannelsTryBody att with
  | .ok messageId =>
    .ok ⟨true, some (jsOrStr messageId ("mc-" ++ toString now)), none⟩
  | .error (.err je) =>
    if isEmailErrorJs je then .error je
    else .ok ⟨false, none, some je⟩
  | .error (.value _) =>
    .ok ⟨false, none, some (.plain "Unknown error occurred")⟩

/-!
Claim-side definitions.  `specC4NameAccept` restates claim C4's acceptance
predicate in the spec's words (for comparison against the code-derived
`parseName`); `ProviderKind`/`amendedSelectionPolicy` restate the amended
selection policy of claim C1 as a decision table over the three inputs the
factory actually branches on, to be compared with the code-derived
`EmailProviderFactory.getProviderChoice`.
-/

/-- specC4NameAccept follows the claim's words for the `name` field: 1-100
characters consisting only of letters, spaces and basic punctuation. -/
def specC4NameAccept (s : String) : Bool :=
  1 ≤ s.length && s.length ≤ 100 && s.data.all nameCharOk

/-- ProviderKind is the provider family, forgetting the carried API key. -/
inductive ProviderKind : Type where
  | apiKeyKind : ProviderKind
  | domainAuthKind : ProviderKind
  | legacyKind : ProviderKind
  | smtpKind : ProviderKind
deriving Repr, DecidableEq

/-- providerKind maps a concrete provider choice to its family. -/
def providerKind : ProviderChoice → ProviderKind
  | .apiKey _ => .apiKeyKind
  | .workerDomainAuth => .domainAuthKind
  | .legacyMailchannels => .legacyKind
  | .nodemailer => .smtpKind

/-- resolvedTypeIsMailchannels tells whether the factory's resolved
provider type (its `EMAIL_PROVIDER`/`EMAIL_SERVICE` resolution,
lower-cased) is `mailchannels`. -/
def resolvedTypeIsMailchannels (env : EnvCfg) : Bool :=
  jsToLower (if env.EMAIL_PROVIDER = some "mailchannels" then "mailchannels"
             else jsOrStr env.EMAIL_SERVICE "gmail") = "mailchannels"

/-- amendedSelectionPolicy states the amended claim C1 as a decision table
over (key configured, resolved type is mailchannels, worker host): a
configured key selects API-key auth in mailchannels mode or on the worker
host, but the long-lived host outside mailchannels mode selects SMTP even
with a key; with no key the worker host selects domain auth, and the
long-lived host selects the legacy MailChannels provider in mailchannels
mode and SMTP otherwise. -/
def amendedSelectionPolicy (keyConfigured mcMode edge : Bool) : ProviderKind :=
  match keyConfigured, mcMode, edge with
  | true, true, _ => .apiKeyKind
  | true, false, true => .apiKeyKind
  | true, false, false => .smtpKind
  | false, _, true => .domainAuthKind
  | false, true, false => .legacyKind
  | false, false, false => .smtpKind

/-!
Supporting lemmas: characters, trimming, lower-casing, and map lookup.
-/

/-- Two characters are equal exactly when their code points are. -/
theorem char_eq_iff_toNat (c d : Char) : (c = d) ↔ c.toNat = d.toNat := by
  constructor
  · intro h; rw [h]
  · intro h
    exact Char.ext (UInt32.ext h)

/-- Building a character from a scalar value below the surrogate range
preserves the value. -/
theorem char_toNat_ofNat (n : Nat) (h : n < 55296) : (Char.ofNat n).toNat = n := by
  simp only [Char.ofNat, Nat.isValidChar]
  rw [dif_pos (Or.inl h)]
  unfold Char.ofNatAux Char.toNat
  simp [UInt32.toNat]

/-- Code point of `Char.toLower`: shift upper-case ASCII by 32, fix
everything else. -/
theorem char_toNat_toLower (c : Char) :
    (Char.toLower c).toNat = if 65 ≤ c.toNat ∧ c.toNat ≤ 90 then c.toNat + 32 else c.toNat := by
  unfold Char.toLower
  simp only [ge_iff_le]
  by_cases h : 65 ≤ c.toNat ∧ c.toNat ≤ 90
  · rw [if_pos h, if_pos h, char_toNat_ofNat _ (by omega)]
  · rw [if_neg h, if_neg h]

/-- Lower-casing a character is idempotent. -/
theorem toLower_toLower (c : Char) : c.toLower.toLower = c.toLower := by
  rw [char_eq_iff_toNat, char_toNat_toLower, char_toNat_toLower c]
  split_ifs <;> omega

/-- Characterization of `jsWhitespaceChar` by code point. -/
theorem jsWhitespaceChar_iff (c : Char) : jsWhitespaceChar c = true ↔
    c.toNat = 32 ∨ c.toNat = 9 ∨ c.toNat = 10 ∨ c.toNat = 13 ∨ c.toNat = 11 ∨
    c.toNat = 12 ∨ c.toNat = 160 ∨ c.toNat = 8232 ∨ c.toNat = 8233 ∨ c.toNat = 65279 := by
  unfold jsWhitespaceChar
  simp only [Bool.or_eq_true, decide_eq_true_eq, char_eq_iff_toNat,
    show (' ').toNat = 32 from rfl, show ('\t').toNat = 9 from rfl,
    show ('\n').toNat = 10 from rfl, show ('\r').toNat = 13 from rfl,
    show (Char.ofNat 11).toNat = 11 from rfl, show (Char.ofNat 12).toNat = 12 from rfl,
    show (Char.ofNat 0xa0).toNat = 160 from rfl,
    show (Char.ofNat 0x2028).toNat = 8232 from rfl,
    show (Char.ofNat 0x2029).toNat = 8233 from rfl,
    show (Char.ofNat 0xfeff).toNat = 65279 from rfl]
  tauto

/-- Lower-casing does not change whether a character is whitespace. -/
theorem jsWhitespaceChar_toLower (c : Char) :
    jsWhitespaceChar c.toLower = jsWhitespaceChar c := by
  have h := char_toNat_toLower c
  rcases Bool.eq_false_or_eq_true (jsWhitespaceChar c) with hc | hc
  · rw [hc]
    rw [jsWhitespaceChar_iff] at hc ⊢
    split_ifs at h <;> omega
  · rw [hc, Bool.eq_false_iff]
    intro hl
    rw [jsWhitespaceChar_iff] at hl
    have hcf : ¬ (jsWhitespaceChar c = true) := by rw [hc]; simp
    rw [jsWhitespaceChar_iff] at hcf
    split_ifs at h <;> omega

/-- A list left fixed by `dropWhile` does not start with a matching
element. -/
theorem dropWhile_cons_eq_self {p : Char → Bool} {c : Char} {u : List Char}
    (h : (c :: u).dropWhile p = c :: u) : p c = false := by
  by_contra hc
  simp only [Bool.not_eq_false] at hc
  rw [List.dropWhile_cons, if_pos hc] at h
  have h1 := (List.dropWhile_sublist (l := u) p).length_le
  have h2 := congrArg List.length h
  simp at h2
  omega

/-- Trimming the tail of a front-trimmed list leaves a list that is still
front-trimmed. -/
theorem trimmed_dropWhile {p : Char → Bool} (as : List Char) (h : as.dropWhile p = as) :
    ((as.reverse.dropWhile p).reverse).dropWhile p = (as.reverse.dropWhile p).reverse := by
  cases hX : (as.reverse.dropWhile p).reverse with
  | nil => rfl
  | cons c u =>
    have h1 : as.reverse.takeWhile p ++ as.reverse.dropWhile p = as.reverse :=
      List.takeWhile_append_dropWhile p as.reverse
    have h2 : as = (as.reverse.dropWhile p).reverse ++ (as.reverse.takeWhile p).reverse := by
      have h3 := congrArg List.reverse h1
      rw [List.reverse_append, List.reverse_reverse] at h3
      exact h3.symm
    rw [hX] at h2
    have hc : p c = false := by
      apply dropWhile_cons_eq_self (u := u ++ (as.reverse.takeWhile p).reverse)
      have h4 := h
      rw [h2] at h4
      simpa [List.cons_append] using h4
    simp [List.dropWhile_cons, hc]

/-- jsTrim is idempotent. -/
theorem jsTrim_idem (s : String) : jsTrim (jsTrim s) = jsTrim s := by
  unfold jsTrim
  have h1 : (s.data.dropWhile jsWhitespaceChar).dropWhile jsWhitespaceChar
      = s.data.dropWhile jsWhitespaceChar := List.dropWhile_idempotent _ _
  have h2 := trimmed_dropWhile (p := jsWhitespaceChar) (s.data.dropWhile jsWhitespaceChar) h1
  simp only [show ∀ l : List Char, (String.mk l).data = l from fun _ => rfl]
  rw [h2, List.reverse_reverse]
  rw [List.dropWhile_idempotent]

/-- Pointwise idempotence of lower-casing, as a function equation. -/
theorem toLower_comp_toLower : Char.toLower ∘ Char.toLower = Char.toLower :=
  funext toLower_toLower

/-- jsToLower is idempotent. -/
theorem jsToLower_idem (s : String) : jsToLower (jsToLower s) = jsToLower s := by
  unfold jsToLower
  simp only [show ∀ l : List Char, (String.mk l).data = l from fun _ => rfl]
  rw [List.map_map, toLower_comp_toLower]

/-- Whitespace invariance of lower-casing, as a function equation. -/
theorem jsWhitespace_comp_toLower :
    jsWhitespaceChar ∘ Char.toLower = jsWhitespaceChar :=
  funext jsWhitespaceChar_toLower

/-- Lower-casing commutes with trimming. -/
theorem jsToLower_jsTrim (s : String) : jsToLower (jsTrim s) = jsTrim (jsToLower s) := by
  unfold jsToLower jsTrim
  simp only [show ∀ l : List Char, (String.mk l).data = l from fun _ => rfl]
  rw [List.dropWhile_map, jsWhitespace_comp_toLower, ← List.map_reverse,
    List.dropWhile_map, jsWhitespace_comp_toLower, ← List.map_reverse]

/-- The email normalization `trim ∘ toLowerCase` is idempotent. -/
theorem normEmail_stable (e : String) :
    jsTrim (jsToLower (jsTrim (jsToLower e))) = jsTrim (jsToLower e) := by
  rw [jsToLower_jsTrim, jsToLower_idem, jsTrim_idem]

/-- Looking up a key just written into the rate-limit map finds the
written entry. -/
theorem mapGet_mapSet (m : RateMap) (k : String) (v : RateEntry) :
    mapGet (mapSet m k v) k = some v := by
  induction m with
  | nil => simp [mapSet, mapGet, List.find?]
  | cons p rest ih =>
    unfold mapSet
    by_cases h : p.1 = k
    · simp [h, mapGet, List.find?]
    · simp only [if_neg h]
      unfold mapGet List.find?
      rw [decide_eq_false h]
      exact ih

/-- Claim C1 (counterexample): the factory does not prefer API-key auth
regardless of host for every configuration — with a key configured but
the resolved provider type not `mailchannels` and the long-lived host,
it selects the SMTP (Nodemailer) provider; and with no key, long-lived
host and provider type `mailchannels`, it selects the legacy MailChannels
provider, not SMTP. -/
theorem c1_getProvider_policy_counterexample :
    EmailProviderFactory.getProviderChoice ⟨none, none, some "testapikey1234"⟩ false
      = ProviderChoice.nodemailer ∧
    EmailProviderFactory.getProviderChoice ⟨some "mailchannels", none, none⟩ false
      = ProviderChoice.legacyMailchannels := by
  constructor <;> rfl

/-- Claim C1 (amended): `getProvider` selects by the decision table
`amendedSelectionPolicy` over (key configured, resolved type is
mailchannels, worker host): key plus mailchannels mode or worker host
selects API-key auth; key on the long-lived host outside mailchannels
mode still selects SMTP; no key selects domain auth on the worker host,
the legacy provider in mailchannels mode on the long-lived host, and SMTP
otherwise. -/
theorem c1_getProvider_policy_amended (env : EnvCfg) (w : Bool) :
    providerKind (EmailProviderFactory.getProviderChoice env w)
      = amendedSelectionPolicy (truthyOptStr env.MAILCHANNELS_API_KEY)
          (resolvedTypeIsMailchannels env) w := by
  cases hk : truthyOptStr env.MAILCHANNELS_API_KEY <;> cases w <;>
    by_cases hm : (jsToLower (if env.EMAIL_PROVIDER = some "mailchannels" then "mailchannels"
        else jsOrStr env.EMAIL_SERVICE "gmail") = "mailchannels") <;>
      simp [EmailProviderFactory.getProviderChoice, resolvedTypeIsMailchannels,
        amendedSelectionPolicy, providerKind, hk, hm]

/-- Claim C2 (code bug evaluation): a middleware chain that completes
without throwing after writing a 429 body makes `runMiddlewareChain`
return `false`, and the empty chain (no body ever set) makes it return
`true` — the exact opposite of the claimed (and internally documented)
"true means a response was sent" signal. -/
theorem c2_runMiddlewareChain_inverted :
    (runNext [⟨0, [.statusA 429, .jsonA rateLimitRejectionBody], .stop⟩] initChainResp).2.2
      = none ∧
    truthy (runNext [⟨0, [.statusA 429, .jsonA rateLimitRejectionBody], .stop⟩]
      initChainResp).1.body = true ∧
    (runMiddlewareChain false [⟨0, [.statusA 429, .jsonA rateLimitRejectionBody], .stop⟩]
      initChainResp).1 = false ∧
    (runMiddlewareChain false [] initChainResp).1 = true :=
  ⟨rfl, rfl, rfl, rfl⟩

/-- Claim C3 (counterexample): with one registered `finish` listener,
`json()` followed by two `send()` calls invokes the listener three times,
not exactly once in total. -/
theorem c3_finish_counterexample :
    (runWOps [.onFinish 0, .jsonOp (.obj [("success", .bool true)]), .sendOp,
      .sendOp]).finishLog = [0, 0, 0] := rfl

/-- Claim C3 (amended): after any operation sequence, a second `send()`
yields exactly the same observable native response as the first, but the
`finish` listeners fire once per finalization call (in registration
order), so two `send()` calls fire them twice, not once in total. -/
theorem c3_send_idempotent_amended (ops : List WOp) :
    runWOps (ops ++ [.sendOp, .sendOp]) =
      ⟨(runWOps ops).resp,
       (runWOps ops).finishLog ++ (runWOps ops).resp.listeners ++ (runWOps ops).resp.listeners,
       (runWOps ops).sent ++ [sendResponse (runWOps ops).resp, sendResponse (runWOps ops).resp]⟩ := by
  unfold runWOps
  rw [List.foldl_append]
  simp [stepWOp, List.append_assoc]

/-- Claim C8: after any operation sequence on the buffering host,
`send()` produces a native response with no body exactly when the
buffered status code is 101, 204, 205 or 304 (even if a body was set),
and otherwise a body that is the JSON serialization of the stored body,
with the buffered status and headers applied. -/
theorem c8_send_null_body_statuses (ops : List WOp) :
    runWOps (ops ++ [.sendOp]) =
      ⟨(runWOps ops).resp,
       (runWOps ops).finishLog ++ (runWOps ops).resp.listeners,
       (runWOps ops).sent ++
         [⟨(runWOps ops).resp.statusCode, (runWOps ops).resp.headers,
           if (runWOps ops).resp.statusCode ∈ [101, 204, 205, 304] then none
           else jsonStringify (runWOps ops).resp.body⟩]⟩ := by
  unfold runWOps
  rw [List.foldl_append]
  simp [stepWOp, sendResponse, nullBodyStatusCodes]
  split_ifs <;> rfl

/-- Claim C4 (counterexample): the one-letter name "A" and a 60-letter
name lie inside the claimed 1-100 character bounds and character class,
yet `EmailRequestSchema` validation rejects both (the code bounds are
2-50). -/
theorem c4_name_bounds_counterexample :
    specC4NameAccept "A" = true ∧
    parseEmailRequest ⟨"A", "a@b.co", "hello there friend"⟩ = none ∧
    specC4NameAccept (String.mk (List.replicate 60 'a')) = true ∧
    parseEmailRequest ⟨String.mk (List.replicate 60 'a'), "a@b.co", "hello there friend"⟩
      = none := by
  refine ⟨rfl, rfl, ?_, ?_⟩ <;> rfl

/-- Claim C9 (counterexample): the valid submission with name "A "
normalizes to name "A", but validating that already-normalized submission
fails (the trimmed name is below the 2-character minimum), so
normalization is not idempotent as claimed. -/
theorem c9_not_idempotent_counterexample :
    parseEmailRequest ⟨"A ", "a@b.co", "hello there!"⟩
      = some ⟨"A", "a@b.co", "hello there!"⟩ ∧
    parseEmailRequest ⟨"A", "a@b.co", "hello there!"⟩ = none := by
  constructor
  · decide
  · rfl

/-- Claim C10: when the request body is absent/falsy, not an object, or
its `email` field is not a string, the email rate limiter calls `next()`
immediately, writes no 429 rejection, and leaves the rate-limit counter
map untouched. -/
theorem c10_rate_limiter_skips (W N : Int) (body : JsVal) (now : Int) (m : RateMap)
    (h : truthy body = false ∨ jsTypeof body ≠ "object"
      ∨ isJsString (getField body "email") = false) :
    commonEmailRateLimiter W N body now m = ⟨true, none, m⟩ := by
  unfold commonEmailRateLimiter
  rcases h with h | h | h
  · rw [if_pos]
    simp [h]
  · rw [if_pos]
    simp [h]
  · cases body with
    | obj fields =>
      rcases hf : getField (.obj fields) "email" with _ | _ | b | n | s | l <;>
        simp [hf, isJsString] at h ⊢
    | null => rfl
    | undefined => rfl
    | bool b => cases b <;> rfl
    | num n => simp [truthy, jsTypeof]
    | str s => by_cases hs : s = "" <;> simp [truthy, jsTypeof, hs]

/-- A successful `name` parse returns the trimmed input. -/
theorem parseName_eq (s n : String) (h : parseName s = some n) : n = jsTrim s := by
  unfold parseName at h
  split_ifs at h
  · injection h with h'
    exact h'.symm

/-- A successful `email` parse returns the lower-cased, trimmed input. -/
theorem parseEmail_eq (s e : String) (h : parseEmail s = some e) :
    e = jsTrim (jsToLower s) := by
  unfold parseEmail at h
  split_ifs at h
  · injection h with h'
    exact h'.symm

/-- A successful `message` parse returns the trimmed input. -/
theorem parseMessage_eq (s m : String) (h : parseMessage s = some m) : m = jsTrim s := by
  unfold parseMessage at h
  split_ifs at h
  · injection h with h'
    exact h'.symm

/-- The `name` checks as a proposition (the `min(2)` bound subsumes the
regex's non-emptiness). -/
theorem parseName_cond (s : String) :
    (2 ≤ s.length && s.length ≤ 50 && s.length != 0 && s.data.all nameCharOk) = true
      ↔ (2 ≤ s.length ∧ s.length ≤ 50 ∧ s.data.all nameCharOk = true) := by
  simp only [Bool.and_eq_true, decide_eq_true_eq, bne_iff_ne, ne_eq]
  constructor
  · rintro ⟨⟨⟨ha, hb⟩, -⟩, hd⟩
    exact ⟨ha, hb, hd⟩
  · rintro ⟨ha, hb, hd⟩
    refine ⟨⟨⟨ha, hb⟩, ?_⟩, hd⟩
    omega

/-- Claim C4 (amended): with the other two fields valid, EmailSubmission
validation accepts the `name` field exactly when it is 2-50 characters
consisting only of letters, whitespace, hyphen, apostrophe and period. -/
theorem c4_name_validation_amended (name email message : String)
    (he : (parseEmail email).isSome = true) (hm : (parseMessage message).isSome = true) :
    (parseEmailRequest ⟨name, email, message⟩).isSome = true
      ↔ (2 ≤ name.length ∧ name.length ≤ 50 ∧ name.data.all nameCharOk = true) := by
  obtain ⟨e', he'⟩ := Option.isSome_iff_exists.mp he
  obtain ⟨m', hm'⟩ := Option.isSome_iff_exists.mp hm
  unfold parseEmailRequest
  rw [he', hm']
  rw [← parseName_cond]
  unfold parseName
  by_cases h : (2 ≤ name.length && name.length ≤ 50 && name.length != 0
      && name.data.all nameCharOk) = true
  · rw [if_pos h]
    simp [h]
  · rw [if_neg h]
    simp [h]

/-- Witness for claim C4's amended theorem. -/
theorem c4_name_validation_amended_witness :
    (parseEmailRequest ⟨"Jo", "a@b.co", "hello there!"⟩).isSome = true
      ↔ (2 ≤ ("Jo" : String).length ∧ ("Jo" : String).length ≤ 50
          ∧ ("Jo" : String).data.all nameCharOk = true) :=
  c4_name_validation_amended "Jo" "a@b.co" "hello there!" (by decide) (by decide)

/-- Claim C9 (amended): every submission that passes validation comes out
with `name`/`message` trimmed and `email` lower-cased then trimmed, and
re-validating an already-normalized submission, whenever it succeeds,
returns it unchanged (idempotence holds only conditionally: the
counterexample shows re-validation can fail outright). -/
theorem c9_normalization_amended (sub r : EmailSubmission)
    (h : parseEmailRequest sub = some r) :
    (r.name = jsTrim sub.name ∧ r.email = jsTrim (jsToLower sub.email) ∧
     r.message = jsTrim sub.message) ∧
    (∀ r', parseEmailRequest r = some r' → r' = r) := by
  unfold parseEmailRequest at h
  cases hn : parseName sub.name with
  | none => rw [hn] at h; cases h
  | some n =>
  cases he : parseEmail sub.email with
  | none => rw [hn, he] at h; cases h
  | some e =>
  cases hm : parseMessage sub.message with
  | none => rw [hn, he, hm] at h; cases h
  | some m =>
  rw [hn, he, hm] at h
  injection h with h'
  have hn' := parseName_eq _ _ hn
  have he' := parseEmail_eq _ _ he
  have hm' := parseMessage_eq _ _ hm
  subst h'
  refine ⟨⟨hn', he', hm'⟩, ?_⟩
  intro r' h2
  unfold parseEmailRequest at h2
  cases hn2 : parseName n with
  | none => rw [hn2] at h2; cases h2
  | some n2 =>
  cases he2 : parseEmail e with
  | none => rw [hn2, he2] at h2; cases h2
  | some e2 =>
  cases hm2 : parseMessage m with
  | none => rw [hn2, he2, hm2] at h2; cases h2
  | some m2 =>
  rw [hn2, he2, hm2] at h2
  injection h2 with h2'
  subst h2'
  have hn2' := parseName_eq _ _ hn2
  have he2' := parseEmail_eq _ _ he2
  have hm2' := parseMessage_eq _ _ hm2
  have e1 : n2 = n := by rw [hn2', hn', jsTrim_idem]
  have e2' : e2 = e := by rw [he2', he', normEmail_stable]
  have e3 : m2 = m := by rw [hm2', hm', jsTrim_idem]
  rw [e1, e2', e3]

/-- Witness for claim C9's amended theorem. -/
theorem c9_normalization_amended_witness :
    ((⟨"Ada Lovelace", "ada@example.com", "Hi there, test."⟩ : EmailSubmission).name
        = jsTrim (⟨" Ada Lovelace ", "ADA@EXAMPLE.COM", "Hi there, test."⟩ :
            EmailSubmission).name ∧
     (⟨"Ada Lovelace", "ada@example.com", "Hi there, test."⟩ : EmailSubmission).email
        = jsTrim (jsToLower (⟨" Ada Lovelace ", "ADA@EXAMPLE.COM", "Hi there, test."⟩ :
            EmailSubmission).email) ∧
     (⟨"Ada Lovelace", "ada@example.com", "Hi there, test."⟩ : EmailSubmission).message
        = jsTrim (⟨" Ada Lovelace ", "ADA@EXAMPLE.COM", "Hi there, test."⟩ :
            EmailSubmission).message) ∧
    (∀ r', parseEmailRequest ⟨"Ada Lovelace", "ada@example.com", "Hi there, test."⟩ = some r'
      → r' = ⟨"Ada Lovelace", "ada@example.com", "Hi there, test."⟩) :=
  c9_normalization_amended ⟨" Ada Lovelace ", "ADA@EXAMPLE.COM", "Hi there, test."⟩
    ⟨"Ada Lovelace", "ada@example.com", "Hi there, test."⟩ (by decide)

/-- Witness for claim C10's theorem. -/
theorem c10_rate_limiter_skips_witness :
    commonEmailRateLimiter 60000 2 .null 0 [] = ⟨true, none, []⟩ :=
  c10_rate_limiter_skips 60000 2 .null 0 [] (Or.inl rfl)

/-- When the chain raises, the invoked middlewares are exactly the
initial segment of the list ending at the thrower. -/
theorem runNext_error_trace :
    ∀ (mws : List MW) (r₀ r : ChainResp) (tr : List Nat) (e : Thrown),
    runNext mws r₀ = (r, tr, some e) →
    ∃ k, k + 1 = tr.length ∧ tr = ((mws.take (k+1)).map MW.id) ∧
      ∃ mwk, mws[k]? = some mwk ∧ mwk.outcome = .throwE e := by
  intro mws
  induction mws with
  | nil =>
    intro r₀ r tr e h
    simp [runNext] at h
  | cons mw rest ih =>
    intro r₀ r tr e h
    rw [runNext] at h
    cases ho : mw.outcome with
    | throwE e' =>
      rw [ho] at h
      simp only [Prod.mk.injEq] at h
      obtain ⟨h1, h2, h3⟩ := h
      injection h3 with h3'
      refine ⟨0, ?_, ?_, mw, by simp, ?_⟩
      · rw [← h2]
        rfl
      · rw [← h2]
        simp
      · rw [ho, h3']
    | stop =>
      rw [ho] at h
      simp only [Prod.mk.injEq] at h
      obtain ⟨-, -, h3⟩ := h
      cases h3
    | callNext post =>
      rw [ho] at h
      rcases hrec : runNext rest (applyWActs mw.pre r₀) with ⟨r2, tr2, oe⟩
      rw [hrec] at h
      cases oe with
      | some e2 =>
        simp only [Prod.mk.injEq] at h
        obtain ⟨h1, h2, h3⟩ := h
        injection h3 with h3'
        obtain ⟨k, hk1, hk2, mwk, hk3, hk4⟩ := ih _ _ _ _ hrec
        refine ⟨k + 1, ?_, ?_, mwk, ?_, ?_⟩
        · rw [← h2]
          simp [← hk1]
        · rw [← h2, hk2]
          simp
        · simpa using hk3
        · rw [hk4, h3']
      | none =>
        simp only [Prod.mk.injEq] at h
        obtain ⟨-, -, h3⟩ := h
        cases h3

/-- Claim C5: when any middleware throws synchronously or rejects, the
runner catches it, writes the standardized error response through
`res.status(...).json(...)` from the `handleError`/`createErrorResponse`
mapping over the response state at the moment of the throw, lets no
exception propagate (it returns normally), reports `true` ("response
already sent") to the caller, and the middlewares that ran are exactly
the list prefix ending at the thrower — none after it runs. -/
theorem c5_runMiddlewareChain_error (dev : Bool) (mws : List MW) (r₀ r : ChainResp)
    (tr : List Nat) (e : Thrown) (h : runNext mws r₀ = (r, tr, some e)) :
    runMiddlewareChain dev mws r₀ =
      (true,
       { r with statusCode := (createErrorResponse dev (handleError e)).1,
                body := errorResponseJson (createErrorResponse dev (handleError e)).2 },
       tr) ∧
    (∃ k, k + 1 = tr.length ∧ tr = ((mws.take (k+1)).map MW.id) ∧
      ∃ mwk, mws[k]? = some mwk ∧ mwk.outcome = .throwE e) := by
  constructor
  · unfold runMiddlewareChain
    rw [h]
    rfl
  · exact runNext_error_trace mws r₀ r tr e h

/-- Witness for claim C5's theorem. -/
theorem c5_runMiddlewareChain_error_witness :
    runMiddlewareChain false
        [⟨0, [], .callNext []⟩, ⟨1, [.statusA 418], .throwE (.err (.plain "boom"))⟩]
        initChainResp =
      (true,
       ⟨500, [("Content-Type", "application/json")],
        errorResponseJson ⟨"Internal server error", .SERVER_ERROR, .undefined⟩⟩,
       [0, 1]) ∧
    (∃ k, k + 1 = ([0, 1] : List Nat).length ∧
      ([0, 1] : List Nat) =
        (([⟨0, [], .callNext []⟩,
           ⟨1, [.statusA 418], .throwE (.err (.plain "boom"))⟩] : List MW).take (k+1)).map MW.id ∧
      ∃ mwk, ([⟨0, [], .callNext []⟩,
           ⟨1, [.statusA 418], .throwE (.err (.plain "boom"))⟩] : List MW)[k]? = some mwk ∧
        mwk.outcome = .throwE (.err (.plain "boom"))) :=
  c5_runMiddlewareChain_error false
    [⟨0, [], .callNext []⟩, ⟨1, [.statusA 418], .throwE (.err (.plain "boom"))⟩]
    initChainResp ⟨418, [("Content-Type", "application/json")], .null⟩ [0, 1]
    (.err (.plain "boom")) rfl

/-- Claim C6: for every outcome of the effectful try body of a MailChannels
provider's `sendEmail`, the call either returns a non-throwing
`EmailSendResult` with `success := false` carrying the error, or — exactly
when the thrown error is an application `EmailError` — rethrows that error
unchanged; every escaping error is an `EmailError`, and a thrown non-Error
value is wrapped as the generic unknown-error result. -/
theorem c6_sendEmail_error_normalization (att : SendAttempt) (now : Int) :
    (∀ e, mailChannelsSendEmail att now = .error e → isEmailErrorJs e = true) ∧
    (∀ je : JsError, mailChannelsTryBody att = .error (.err je) →
      mailChannelsSendEmail att now =
        (if isEmailErrorJs je then .error je else .ok ⟨false, none, some je⟩)) ∧
    (∀ v : JsVal, mailChannelsTryBody att = .error (.value v) →
      mailChannelsSendEmail att now = .ok ⟨false, none, some (.plain "Unknown error occurred")⟩) := by
  refine ⟨?_, ?_, ?_⟩
  · intro e he
    cases hb : mailChannelsTryBody att with
    | ok mid =>
      have hred : mailChannelsSendEmail att now
          = .ok ⟨true, some (jsOrStr mid ("mc-" ++ toString now)), none⟩ := by
        unfold mailChannelsSendEmail
        rw [hb]
      rw [hred] at he
      cases he
    | error t =>
      cases t with
      | err je =>
        have hred : mailChannelsSendEmail att now
            = if isEmailErrorJs je then .error je else .ok ⟨false, none, some je⟩ := by
          unfold mailChannelsSendEmail
          rw [hb]
        rw [hred] at he
        by_cases hje : isEmailErrorJs je = true
        · rw [if_pos hje] at he
          injection he with he'
          rw [← he']
          exact hje
        · rw [if_neg hje] at he
          cases he
      | value v =>
        have hred : mailChannelsSendEmail att now
            = .ok ⟨false, none, some (.plain "Unknown error occurred")⟩ := by
          unfold mailChannelsSendEmail
          rw [hb]
        rw [hred] at he
        cases he
  · intro je hb
    unfold mailChannelsSendEmail
    rw [hb]
  · intro v hb
    unfold mailChannelsSendEmail
    rw [hb]

/-- Witness for claim C6's theorem. -/
theorem c6_sendEmail_error_normalization_witness :
    mailChannelsSendEmail ⟨some (.err (.plain "ECONNREFUSED")), .ok none⟩ 0
      = .ok ⟨false, none, some (.plain "ECONNREFUSED")⟩ ∧
    mailChannelsSendEmail ⟨some (.err (.email "Failed to send email" "EMAIL_ERROR" 500)), .ok none⟩ 0
      = .error (.email "Failed to send email" "EMAIL_ERROR" 500) := by
  constructor
  · have h := (c6_sendEmail_error_normalization
      ⟨some (.err (.plain "ECONNREFUSED")), .ok none⟩ 0).2.1 (.plain "ECONNREFUSED") rfl
    simpa using h
  · have h := (c6_sendEmail_error_normalization
      ⟨some (.err (.email "Failed to send email" "EMAIL_ERROR" 500)), .ok none⟩ 0).2.1
      (.email "Failed to send email" "EMAIL_ERROR" 500) rfl
    simpa using h

/-- Claim C7: with limit `N` over window `W`, a request keyed to an email
whose counter already holds `N` inside the current window is rejected
with the 429 body and `next()` is not invoked; and a request arriving
more than `W` after the window start passes through with the key's
counter reset to `{count := 1, timestamp := now}`. -/
theorem c7_email_rate_limiter (W N : Int) (fields : List (String × JsVal)) (s key : String)
    (now ts cnt : Int) (m : RateMap)
    (hf : getField (.obj fields) "email" = .str s)
    (hk : jsToLower s = key) (hne : key ≠ "")
    (hm : mapGet m key = some ⟨cnt, ts⟩) :
    (cnt = N → now - ts ≤ W →
      (commonEmailRateLimiter W N (.obj fields) now m).calledNext = false ∧
      (commonEmailRateLimiter W N (.obj fields) now m).rejected
        = some (429, rateLimitRejectionBody)) ∧
    (now - ts > W →
      (commonEmailRateLimiter W N (.obj fields) now m).calledNext = true ∧
      (commonEmailRateLimiter W N (.obj fields) now m).rejected = none ∧
      mapGet (commonEmailRateLimiter W N (.obj fields) now m).map key = some ⟨1, now⟩) := by
  have hred : commonEmailRateLimiter W N (.obj fields) now m =
      (let m' := if now % (60 * 60 * 1000) < 1000 then [] else m
       if now - ts > W then
         ⟨true, none, mapSet m' key ⟨1, now⟩⟩
       else if cnt ≥ N then
         ⟨false, some (429, rateLimitRejectionBody), m'⟩
       else
         ⟨true, none, mapSet m' key ⟨cnt + 1, ts⟩⟩) := by
    unfold commonEmailRateLimiter
    rw [if_neg (by simp [truthy, jsTypeof])]
    rw [hf]
    simp only [hk, hm]
    rw [if_neg hne]
  constructor
  · intro hcnt hin
    rw [hred]
    rw [if_neg (by omega), if_pos (by omega)]
    exact ⟨rfl, rfl⟩
  · intro hgt
    rw [hred]
    rw [if_pos hgt]
    exact ⟨rfl, rfl, mapGet_mapSet _ key ⟨1, now⟩⟩

/-- Witness for claim C7's theorem. -/
theorem c7_email_rate_limiter_witness :
    ((commonEmailRateLimiter 1000 2 (.obj [("email", .str "A@B.co")]) 5000
        [("a@b.co", ⟨2, 4500⟩)]).calledNext = false ∧
     (commonEmailRateLimiter 1000 2 (.obj [("email", .str "A@B.co")]) 5000
        [("a@b.co", ⟨2, 4500⟩)]).rejected = some (429, rateLimitRejectionBody)) ∧
    ((commonEmailRateLimiter 1000 2 (.obj [("email", .str "A@B.co")]) 6000
        [("a@b.co", ⟨2, 4500⟩)]).calledNext = true ∧
     (commonEmailRateLimiter 1000 2 (.obj [("email", .str "A@B.co")]) 6000
        [("a@b.co", ⟨2, 4500⟩)]).rejected = none ∧
     mapGet (commonEmailRateLimiter 1000 2 (.obj [("email", .str "A@B.co")]) 6000
        [("a@b.co", ⟨2, 4500⟩)]).map "a@b.co" = some ⟨1, 6000⟩) := by
  constructor
  · exact (c7_email_rate_limiter 1000 2 [("email", .str "A@B.co")] "A@B.co" "a@b.co"
      5000 4500 2 [("a@b.co", ⟨2, 4500⟩)] rfl (by decide) (by decide) (by decide)).1
      rfl (by decide)
  · exact (c7_email_rate_limiter 1000 2 [("email", .str "A@B.co")] "A@B.co" "a@b.co"
      6000 4500 2 [("a@b.co", ⟨2, 4500⟩)] rfl (by decide) (by decide) (by decide)).2
      (by decide)
